import Mathlib

/-!
Shallow embedding of the APDL escrow chaincode (apdlcc.go).

The chaincode keeps one agreement record under a fixed key and one
decimal-string balance per participant public key in the platform's
key-value store.  We model the store as a function from keys to
optional stored values; one invocation reads from the committed
pre-state (the platform's GetState does not observe the invocation's
own uncommitted writes) and accumulates its writes in order.

Cryptographic primitives (base64 decoding, PKIX key parsing, ECDSA
verification) are modelled abstractly by a `Crypto` structure; all
control flow around them (length checks, comma splitting, the
last-iteration-wins accumulation) is modelled concretely from the
source.  `time.Time` values are modelled as natural numbers ordered
like instants; `time.Parse` with layout 01/02/2006 is modelled by a
calendar-date parser whose encoding y*10000+m*100+d preserves date
order.  Go `int` is modelled as unbounded `Int` (no claim depends on
machine-width overflow).
-/

namespace SSDLedger

/-- Outcome of decoding one public-key string: an elliptic-curve public
key (identified abstractly by a number), or a key of some other type
(the default branch of the Go type switch). -/
inductive KeyKind where
  | ec (e : Nat)
  | other
deriving DecidableEq

/-- Abstract model of the cryptographic primitives used by verifySig.
`parsePubKey` models base64.URLEncoding.DecodeString followed by
x509.ParsePKIXPublicKey, with `none` when that pipeline fails;
`ecVerify` models ecdsa.Verify of the raw message bytes against the two
comma-separated signature components (the big.Int SetString parse of
the components, whose failure the Go code silently ignores, is absorbed
into this abstract function). -/
structure Crypto where
  parsePubKey : String → Option KeyKind
  ecVerify : Nat → String → String → String → Bool

/-- strings.Split on the separator "," (the only separator the source
uses), by structural recursion on the character list.  Like Go's
strings.Split, the empty string yields [""]. -/
def splitCommaAux : List Char → List String
  | [] => [""]
  | c :: rest =>
    let r := splitCommaAux rest
    if c = ',' then "" :: r
    else
      match r with
      | h :: t => String.mk (c :: h.data) :: t
      | [] => [String.mk [c]]

/-- strings.Split(s, ","). -/
def splitComma (s : String) : List String :=
  splitCommaAux s.data

/-- The loop of verifySig over the (public key, signature) pairs,
carrying the `verified` variable: each elliptic-curve iteration
overwrites it with that pair's ecdsa.Verify outcome; a key that fails
to parse, a signature with fewer than two comma-separated components,
or a non-elliptic-curve key returns false immediately; the value left
by the final iteration is returned. -/
def verifyLoop (C : Crypto) (message : String) : List (String × String) → Bool → Bool
  | [], verified => verified
  | (pk, sg) :: rest, _ =>
    match C.parsePubKey pk with
    | none => false
    | some kk =>
      match splitComma sg with
      | r :: sv :: _ =>
        match kk with
        | KeyKind.other => false
        | KeyKind.ec e => verifyLoop C message rest (C.ecVerify e message r sv)
      | _ => false

/-- verifySig from apdlcc.go: false when the two lists differ in
length, otherwise the loop over the paired lists starting from
verified = false. -/
def verifySig (C : Crypto) (message : String) (publicKeys signatures : List String) : Bool :=
  if publicKeys.length ≠ signatures.length then false
  else verifyLoop C message (publicKeys.zip signatures) false

/-- The verification outcome of one (key, signature) pair on its own:
what one iteration of the verifySig loop would leave in `verified`
(false when the key or the signature is malformed). -/
def pairOutcome (C : Crypto) (m k s : String) : Bool :=
  match C.parsePubKey k, splitComma s with
  | some (KeyKind.ec e), r :: sv :: _ => C.ecVerify e m r sv
  | _, _ => false

/-- A (key, signature) pair the verifySig loop passes through: the key
parses to an elliptic-curve key and the signature splits into at least
two comma-separated components. -/
abbrev goodPair (C : Crypto) (k s : String) : Prop :=
  (∃ e, C.parsePubKey k = some (KeyKind.ec e)) ∧ 2 ≤ (splitComma s).length

/-- A (key, signature) pair on which the verifySig loop aborts with
false: the key fails to decode or parse, or parses to a
non-elliptic-curve key, or the signature splits into fewer than two
comma-separated components. -/
abbrev badPair (C : Crypto) (k s : String) : Prop :=
  C.parsePubKey k = none ∨ C.parsePubKey k = some KeyKind.other
    ∨ (splitComma s).length < 2

/-- Concrete crypto instance used for closed evaluations: the key "bad"
fails to decode, the key "rsa" parses to a non-elliptic-curve key,
every other key parses to the same elliptic-curve key, and a signature
verifies exactly when its first component is the string "1". -/
def demoCrypto : Crypto where
  parsePubKey k :=
    if k = "bad" then none
    else if k = "rsa" then some KeyKind.other
    else some (KeyKind.ec 0)
  ecVerify _ _ r _ := r == "1"

/-- Party from apdlcc.go. -/
structure Party where
  PubKey : String
  IPAddress : String
  Port : String
deriving DecidableEq

/-- APDL record from apdlcc.go; ContractExpiry models the time.Time
field as an abstract instant. -/
structure APDL where
  Status : String
  SoftwareOwner : Party
  SoftwareUser : Party
  ContractExpiry : Nat
  DepositAmount : Int
deriving DecidableEq

/-- A value committed in the key-value store: the JSON serialization of
an APDL record, or the decimal bytes of a balance.  Serialization is
modelled as the identity on records (json.Marshal and json.Unmarshal
round-trip field-identically), and a balance's decimal bytes are
modelled by the integer they denote (strconv.Itoa and strconv.Atoi
round-trip). -/
inductive StoreVal where
  | record (a : APDL)
  | bal (n : Int)
deriving DecidableEq

/-- The committed key-value state visible to GetState. -/
abbrev Store := String → Option StoreVal

/-- PutState: record one write. -/
def put (st : Store) (k : String) (v : StoreVal) : Store :=
  fun q => if q = k then some v else st q

/-- The store with no committed keys. -/
def emptyStore : Store := fun _ => none

def StartAmount : Int := 75000
def ContractKey : String := "contract"
def SenderIP : String := "0.0.0.0"
def SenderPort : String := "0"

/-- json.Unmarshal of the bytes under the contract key into an APDL
variable: an absent key or non-record bytes leave the zero value (the
Go code ignores the Unmarshal error). -/
def unmarshal : Option StoreVal → APDL
  | some (StoreVal.record a) => a
  | _ => ⟨"", ⟨"", "", ""⟩, ⟨"", "", ""⟩, 0, 0⟩

/-- strconv.Atoi of stored balance bytes with the error ignored: an
absent key or non-balance bytes read as 0. -/
def readBal : Option StoreVal → Int
  | some (StoreVal.bal n) => n
  | _ => 0

/-- Numeric value of two digit characters. -/
def d2 (a b : Char) : Nat := (a.toNat - 48) * 10 + (b.toNat - 48)

def isLeap (y : Nat) : Bool := y % 4 == 0 && (y % 100 != 0 || y % 400 == 0)

def daysInMonth (m y : Nat) : Nat :=
  if m = 2 then (if isLeap y then 29 else 28)
  else if m = 4 ∨ m = 6 ∨ m = 9 ∨ m = 11 then 30
  else 31

/-- time.Parse with the fixed layout 01/02/2006: exactly two month
digits, a slash, two day digits, a slash, four year digits, with the
month and the day-of-month in range.  The parsed date is encoded as
y*10000 + m*100 + d, which preserves calendar order. -/
def parseDate (s : String) : Option Nat :=
  match s.data with
  | [m1, m2, '/', e1, e2, '/', y1, y2, y3, y4] =>
    if m1.isDigit && m2.isDigit && e1.isDigit && e2.isDigit
        && y1.isDigit && y2.isDigit && y3.isDigit && y4.isDigit then
      let m := d2 m1 m2
      let d := d2 e1 e2
      let y := d2 y1 y2 * 100 + d2 y3 y4
      if 1 ≤ m ∧ m ≤ 12 ∧ 1 ≤ d ∧ d ≤ daysInMonth m y then
        some (y * 10000 + m * 100 + d)
      else none
    else none
  | _ => none

def pad2 (n : Nat) : String := if n < 10 then "0" ++ toString n else toString n

def pad4 (n : Nat) : String :=
  if n < 10 then "000" ++ toString n
  else if n < 100 then "00" ++ toString n
  else if n < 1000 then "0" ++ toString n
  else toString n

/-- time.Time.Format with layout 01/02/2006 on the date encoding. -/
def formatDate (t : Nat) : String :=
  pad2 (t / 100 % 100) ++ "/" ++ pad2 (t % 100) ++ "/" ++ pad4 (t / 10000)

def digitsVal (l : List Char) : Nat :=
  l.foldl (fun n c => n * 10 + (c.toNat - 48)) 0

/-- strconv.Atoi: an optional sign followed by at least one decimal
digit.  Go's machine-width range check is not modelled (no claim
depends on it). -/
def atoi? (s : String) : Option Int :=
  match s.data with
  | [] => none
  | '+' :: rest =>
    if rest.isEmpty then none
    else if rest.all Char.isDigit then some (Int.ofNat (digitsVal rest)) else none
  | '-' :: rest =>
    if rest.isEmpty then none
    else if rest.all Char.isDigit then some (-Int.ofNat (digitsVal rest)) else none
  | l =>
    if l.all Char.isDigit then some (Int.ofNat (digitsVal l)) else none

/-- Bytes of a response payload: either the bytes of a string built by
the chaincode, or bytes read back verbatim from the store (possibly
nil, as get_status returns). -/
inductive Bytes where
  | str (s : String)
  | raw (v : Option StoreVal)
deriving DecidableEq

/-- peer.Response as produced through shim.Success / shim.Error. -/
inductive Response where
  | success (payload : Bytes)
  | error (msg : String)
deriving DecidableEq

/-- Init from apdlcc.go: store a record with status "init", empty
parties, the current time as placeholder expiry and zero deposit. -/
def Init (now : Nat) (st : Store) : Response × Store :=
  (Response.success (Bytes.str "[+] Init completed\n"),
   put st ContractKey (StoreVal.record ⟨"init", ⟨"", "", ""⟩, ⟨"", "", ""⟩, now, 0⟩))

/-- The download_request branch of Invoke.  `input` is the full
GetStringArgs list (the function name at position 0).  The Go error
text for an unparseable date embeds the dynamic time.Parse error; it is
abbreviated to a fixed suffix here (no claim inspects it). -/
def downloadRequest (now : Nat) (input : List String) (st : Store) : Response × Store :=
  let args := input
  if args.length ≠ 7 then
    (Response.error ("Incorrect number of arguments. Got " ++ toString args.length
      ++ ": " ++ String.intercalate "," args
      ++ "Expecting [sender_pk, recipient_pk, deposit_amount, deposit_time, recipient_ip, recipient_port]"),
     st)
  else
    match atoi? (args.getD 3 "") with
    | none => (Response.error "Invalid amount passed", st)
    | some amount =>
      if amount < 0 then (Response.error "Invalid amount passed", st)
      else
        match parseDate (args.getD 4 "") with
        | none =>
          (Response.error ("Unable to parse: " ++ args.getD 4 "" ++ " Error: parsing time"), st)
        | some dt =>
          if ¬ now < dt then
            (Response.error ("Invalid (past) time passed: " ++ formatDate dt
              ++ ". Time Now: " ++ formatDate now), st)
          else
            let senderPublicKey := args.getD 1 ""
            let recipientPublicKey := args.getD 2 ""
            let ds : Party := ⟨senderPublicKey, SenderIP, SenderPort⟩
            let dr : Party := ⟨recipientPublicKey, args.getD 5 "", args.getD 6 ""⟩
            let apdl : APDL := ⟨"download_requested", ds, dr, dt, amount⟩
            let initialAmount := StoreVal.bal (StartAmount - amount)
            let st1 := put st senderPublicKey initialAmount
            let st2 := put st1 recipientPublicKey initialAmount
            let st3 := put st2 ContractKey (StoreVal.record apdl)
            (Response.success (Bytes.str "download_request"), st3)

/-- The penalty branch of Invoke.  `input` is the full argument list;
the Go code takes `args` from GetFunctionAndParameters, which drops the
function name, and then indexes args[1], args[2], args[3], so the
message is the second parameter and the signatures the third and
fourth. -/
def penalty (C : Crypto) (input : List String) (st : Store) : Response × Store :=
  let args := input.tail
  if args.length ≠ 4 then (Response.error "need to pass recipient sig", st)
  else
    let apdl := unmarshal (st ContractKey)
    if apdl.Status = "init" ∨ apdl.Status = "penalized" then
      (Response.error ("[-] Invalid status for penalty. Current status: " ++ apdl.Status), st)
    else
      let publicKeys := [apdl.SoftwareOwner.PubKey, apdl.SoftwareUser.PubKey]
      let signatures := [args.getD 2 "", args.getD 3 ""]
      if verifySig C (args.getD 1 "") publicKeys signatures = true then
        let balance := readBal (st apdl.SoftwareUser.PubKey) - apdl.DepositAmount
        let st1 := put st apdl.SoftwareUser.PubKey (StoreVal.bal balance)
        let st2 := put st1 ContractKey (StoreVal.record { apdl with Status := "penalized" })
        (Response.success (Bytes.str "[+] Penalty applied\n"), st2)
      else
        (Response.error ("[-] Signature verification failed. Penalty not applied. comparisons: "
          ++ (apdl.SoftwareOwner.PubKey ++ " vs. " ++ args.getD 2 "") ++ "---"
          ++ (apdl.SoftwareUser.PubKey ++ " vs. " ++ args.getD 3 "")), st)

/-- The refund branch of Invoke.  The Go code writes the expired record
first and then reads the user's balance; GetState reads the committed
pre-state, so the read is from `st`. -/
def refund (now : Nat) (st : Store) : Response × Store :=
  let apdl := unmarshal (st ContractKey)
  if apdl.Status ≠ "download_request" then
    (Response.error ("[-] Invalid status for refund. Current status: " ++ apdl.Status), st)
  else if apdl.ContractExpiry < now then
    let st1 := put st ContractKey (StoreVal.record { apdl with Status := "expired" })
    let balance := readBal (st apdl.SoftwareUser.PubKey) + apdl.DepositAmount
    let st2 := put st1 apdl.SoftwareUser.PubKey (StoreVal.bal balance)
    (Response.success (Bytes.str "[+] APDL contract expired."), st2)
  else (Response.error "[-] APDL contract not yet expired", st)

/-- The get_status branch of Invoke: the committed contract bytes
verbatim. -/
def getStatus (st : Store) : Response × Store :=
  (Response.success (Bytes.raw (st ContractKey)), st)

/-- Invoke from apdlcc.go.  `input` models the transaction argument
list: the function name first (GetFunctionAndParameters yields its head
and tail).  An unrecognized function name falls through every branch
with `result` still equal to the function name and the outer `err`
still nil (every branch shadows it), so it returns success carrying the
function name. -/
def Invoke (C : Crypto) (now : Nat) (input : List String) (st : Store) : Response × Store :=
  let fn := input.headD ""
  if fn = "download_request" then downloadRequest now input st
  else if fn = "penalty" then penalty C input st
  else if fn = "refund" then refund now st
  else if fn = "get_status" then getStatus st
  else (Response.success (Bytes.str fn), st)

/-- Record used by closed evaluations of penalty: status
"download_requested" as left by a successful request, deposit 500. -/
def apdlW : APDL :=
  ⟨"download_requested", ⟨"K1", "1.1.1.1", "1"⟩, ⟨"U", "2.2.2.2", "2"⟩, 100, 500⟩

/-- Store holding apdlW and a balance of 100 for the user "U". -/
def storeW : Store :=
  put (put emptyStore "U" (StoreVal.bal 100)) ContractKey (StoreVal.record apdlW)

/-- Record used by closed evaluations of refund: status forced to the
literal "download_request" that refund's precondition tests for. -/
def apdlR : APDL :=
  ⟨"download_request", ⟨"K1", "1.1.1.1", "1"⟩, ⟨"U", "2.2.2.2", "2"⟩, 100, 500⟩

/-- Store holding apdlR and a balance of 300 for the user "U". -/
def storeR : Store :=
  put (put emptyStore "U" (StoreVal.bal 300)) ContractKey (StoreVal.record apdlR)

/-- Record as written by Init. -/
def apdlInit : APDL := ⟨"init", ⟨"", "", ""⟩, ⟨"", "", ""⟩, 0, 0⟩

/-- Store holding the record written by Init at time 0. -/
def storeInit : Store := put emptyStore ContractKey (StoreVal.record apdlInit)

/-! Helper lemmas about the store and about lists. -/

theorem put_self (st : Store) (k : String) (v : StoreVal) : put st k v k = some v := by
  simp [put]

theorem put_ne (st : Store) (k q : String) (v : StoreVal) (h : q ≠ k) :
    put st k v q = st q := by
  simp [put, h]

theorem getLastD_cons_eq {α : Type} (a b : α) (l : List α) :
    (b :: l).getLastD a = l.getLastD b := by
  cases l <;> simp [List.getLastD]

theorem invoke_refund_eq (C : Crypto) (now : Nat) (st : Store) :
    Invoke C now ["refund"] st = refund now st := rfl

theorem invoke_penalty_eq (C : Crypto) (now : Nat) (x0 m s1 s2 : String) (st : Store) :
    Invoke C now ["penalty", x0, m, s1, s2] st
      = penalty C ["penalty", x0, m, s1, s2] st := rfl

theorem mem_zip_both {α β : Type} :
    ∀ {l1 : List α} {l2 : List β} {p : α × β}, p ∈ l1.zip l2 → p.1 ∈ l1 ∧ p.2 ∈ l2 := by
  intro l1
  induction l1 with
  | nil => intro l2 p h; simp [List.zip] at h
  | cons a l ih =>
    intro l2 p h
    cases l2 with
    | nil => simp [List.zip] at h
    | cons b l2 =>
      rw [List.zip_cons_cons] at h
      rcases List.mem_cons.1 h with h1 | h2
      · subst h1; exact ⟨List.mem_cons_self _ _, List.mem_cons_self _ _⟩
      · have hm := ih h2
        exact ⟨List.mem_cons_of_mem _ hm.1, List.mem_cons_of_mem _ hm.2⟩

theorem zip_getLastD :
    ∀ (ks ss : List String) (dk dv : String), ks.length = ss.length →
      (ks.zip ss).getLastD (dk, dv) = (ks.getLastD dk, ss.getLastD dv) := by
  intro ks
  induction ks with
  | nil =>
    intro ss dk dv h
    cases ss with
    | nil => simp [List.getLastD]
    | cons s ss => simp at h
  | cons k ks ih =>
    intro ss dk dv h
    cases ss with
    | nil => simp at h
    | cons s ss =>
      rw [List.zip_cons_cons, getLastD_cons_eq, getLastD_cons_eq, getLastD_cons_eq]
      exact ih ss k s (by simpa using h)

theorem zip_getD :
    ∀ (ks ss : List String) (i : Nat), i < ks.length → i < ss.length →
      (ks.zip ss).getD i ("", "") = (ks.getD i "", ss.getD i "") := by
  intro ks
  induction ks with
  | nil => intro ss i hi hi2; simp at hi
  | cons k ks ih =>
    intro ss i hi hi2
    cases ss with
    | nil => simp at hi2
    | cons s ss =>
      cases i with
      | zero => rfl
      | succ j =>
        have hj := ih ss j (Nat.lt_of_succ_lt_succ hi) (Nat.lt_of_succ_lt_succ hi2)
        simpa using hj

/-! Lemmas about the verifySig loop. -/

/-- A loop run over pairs that all pass the per-pair checks returns the
last pair's outcome, whatever the incoming accumulator. -/
theorem verifyLoop_all_good (C : Crypto) (m : String) (ps : List (String × String)) :
    ∀ (p : String × String) (acc : Bool),
      (∀ q ∈ p :: ps, goodPair C q.1 q.2) →
      verifyLoop C m (p :: ps) acc
        = pairOutcome C m ((p :: ps).getLastD p).1 ((p :: ps).getLastD p).2 := by
  induction ps with
  | nil =>
    intro p acc h
    obtain ⟨⟨e, he⟩, hs⟩ := h p (List.mem_cons_self _ _)
    obtain ⟨pk, sg⟩ := p
    rcases hsp : splitComma sg with _ | ⟨r, t⟩
    · rw [hsp] at hs; simp at hs
    · rcases t with _ | ⟨sv, t2⟩
      · rw [hsp] at hs; simp at hs
      · simp [verifyLoop, pairOutcome, he, hsp, List.getLastD]
  | cons p2 ps ih =>
    intro p acc h
    obtain ⟨⟨e, he⟩, hs⟩ := h p (List.mem_cons_self _ _)
    obtain ⟨pk, sg⟩ := p
    rcases hsp : splitComma sg with _ | ⟨r, t⟩
    · rw [hsp] at hs; simp at hs
    · rcases t with _ | ⟨sv, t2⟩
      · rw [hsp] at hs; simp at hs
      · have step : verifyLoop C m ((pk, sg) :: p2 :: ps) acc
            = verifyLoop C m (p2 :: ps) (C.ecVerify e m r sv) := by
          simp [verifyLoop, he, hsp]
        rw [step, ih p2 (C.ecVerify e m r sv) (fun q hq => h q (List.mem_cons_of_mem _ hq))]
        rw [getLastD_cons_eq, getLastD_cons_eq, getLastD_cons_eq]

/-- A loop run that reaches a malformed pair returns false. -/
theorem verifyLoop_bad (C : Crypto) (m : String) :
    ∀ (ps : List (String × String)) (i : Nat) (acc : Bool), i < ps.length →
      (∀ j, j < i → goodPair C (ps.getD j ("", "")).1 (ps.getD j ("", "")).2) →
      badPair C (ps.getD i ("", "")).1 (ps.getD i ("", "")).2 →
      verifyLoop C m ps acc = false := by
  intro ps
  induction ps with
  | nil => intro i acc hi hg hb; simp at hi
  | cons p ps ih =>
    intro i acc hi hg hb
    obtain ⟨pk, sg⟩ := p
    cases i with
    | zero =>
      have hb0 : badPair C pk sg := hb
      rcases hb0 with hk | hk | hs
      · simp [verifyLoop, hk]
      · rcases hsp : splitComma sg with _ | ⟨r, t⟩
        · simp [verifyLoop, hk, hsp]
        · rcases t with _ | ⟨sv, t2⟩
          · simp [verifyLoop, hk, hsp]
          · simp [verifyLoop, hk, hsp]
      · rcases hpk : C.parsePubKey pk with _ | kk
        · simp [verifyLoop, hpk]
        · rcases hsp : splitComma sg with _ | ⟨r, t⟩
          · simp [verifyLoop, hpk, hsp]
          · rcases t with _ | ⟨sv, t2⟩
            · simp [verifyLoop, hpk, hsp]
            · rw [hsp] at hs; simp at hs; omega
    | succ j =>
      have hp : goodPair C pk sg := hg 0 (Nat.succ_pos j)
      obtain ⟨⟨e, he⟩, h2⟩ := hp
      have hb2 : badPair C (ps.getD j ("", "")).1 (ps.getD j ("", "")).2 := hb
      have hg2 : ∀ j2, j2 < j → goodPair C (ps.getD j2 ("", "")).1 (ps.getD j2 ("", "")).2 :=
        fun j2 hj2 => hg (j2 + 1) (Nat.succ_lt_succ hj2)
      rcases hsp : splitComma sg with _ | ⟨r, t⟩
      · rw [hsp] at h2; simp at h2
      · rcases t with _ | ⟨sv, t2⟩
        · rw [hsp] at h2; simp at h2
        · have step : verifyLoop C m ((pk, sg) :: ps) acc
              = verifyLoop C m ps (C.ecVerify e m r sv) := by
            simp [verifyLoop, he, hsp]
          rw [step]
          exact ih j _ (Nat.lt_of_succ_lt_succ hi) hg2 hb2

/-! Claims about verifySig. -/

/-- Claim C1: for every call to verifySig with equal-length key and
signature lists in which every key decodes to an elliptic-curve public
key and every signature splits into at least two components, the
returned boolean equals the verification outcome of the last
(key, signature) pair only; in particular there is an input (here with
demoCrypto) where the first (owner) signature does not verify but the
last (user) signature does, and verifySig returns true. -/
theorem claim1_verifySig_last_pair_only :
    (∀ (C : Crypto) (m : String) (ks ss : List String),
        ks.length = ss.length → ks ≠ [] →
        (∀ k ∈ ks, ∃ e, C.parsePubKey k = some (KeyKind.ec e)) →
        (∀ s ∈ ss, 2 ≤ (splitComma s).length) →
        verifySig C m ks ss = pairOutcome C m (ks.getLastD "") (ss.getLastD ""))
    ∧ (pairOutcome demoCrypto "msg" "K1" "0,0" = false
        ∧ pairOutcome demoCrypto "msg" "K2" "1,1" = true
        ∧ verifySig demoCrypto "msg" ["K1", "K2"] ["0,0", "1,1"] = true) := by
  constructor
  · intro C m ks ss hlen hne hks hss
    cases ks with
    | nil => exact absurd rfl hne
    | cons k ks2 =>
      cases ss with
      | nil => simp at hlen
      | cons s ss2 =>
        have hgood : ∀ q ∈ (k, s) :: ks2.zip ss2, goodPair C q.1 q.2 := by
          intro q hq
          rcases List.mem_cons.1 hq with h1 | h2
          · subst h1
            exact ⟨hks k (List.mem_cons_self _ _), hss s (List.mem_cons_self _ _)⟩
          · have hm := mem_zip_both h2
            exact ⟨hks q.1 (List.mem_cons_of_mem _ hm.1),
                   hss q.2 (List.mem_cons_of_mem _ hm.2)⟩
        have hrun := verifyLoop_all_good C m (ks2.zip ss2) (k, s) false hgood
        have hzip : (k :: ks2).zip (s :: ss2) = (k, s) :: ks2.zip ss2 :=
          List.zip_cons_cons
        simp only [verifySig]
        rw [if_neg (not_ne_iff.mpr hlen), hzip, hrun, ← hzip,
          zip_getLastD (k :: ks2) (s :: ss2) k s hlen]
        rw [getLastD_cons_eq, getLastD_cons_eq, getLastD_cons_eq, getLastD_cons_eq]
  · exact ⟨by decide, by decide, by decide⟩

/-- Witness for claim C1: the general statement applied at a concrete
input with demoCrypto, two elliptic-curve keys and two well-formed
signatures, of which the first fails and the last verifies. -/
theorem claim1_witness :
    verifySig demoCrypto "msg" ["K1", "K2"] ["0,0", "1,1"]
      = pairOutcome demoCrypto "msg" (["K1", "K2"].getLastD "") (["0,0", "1,1"].getLastD "") :=
  claim1_verifySig_last_pair_only.1 demoCrypto "msg" ["K1", "K2"] ["0,0", "1,1"]
    (by decide) (by decide)
    (by
      intro k hk
      simp only [List.mem_cons, List.not_mem_nil, or_false] at hk
      rcases hk with rfl | rfl
      · exact ⟨0, by decide⟩
      · exact ⟨0, by decide⟩)
    (by
      intro s hs
      simp only [List.mem_cons, List.not_mem_nil, or_false] at hs
      rcases hs with rfl | rfl <;> decide)

/-- Claim C8: verifySig returns false whenever the key and signature
lists differ in length, and returns false whenever, at some position
the loop reaches (every earlier position passing its checks), the key
fails decoding or parses to a non-elliptic-curve key, or the signature
splits into fewer than two comma-separated components. -/
theorem claim8_verifySig_rejects_malformed :
    (∀ (C : Crypto) (m : String) (ks ss : List String),
        ks.length ≠ ss.length → verifySig C m ks ss = false)
    ∧ (∀ (C : Crypto) (m : String) (ks ss : List String) (i : Nat),
        ks.length = ss.length → i < ks.length →
        (∀ j, j < i → goodPair C (ks.getD j "") (ss.getD j "")) →
        badPair C (ks.getD i "") (ss.getD i "") →
        verifySig C m ks ss = false) := by
  constructor
  · intro C m ks ss h
    simp [verifySig, h]
  · intro C m ks ss i hlen hi hg hb
    simp only [verifySig]
    rw [if_neg (not_ne_iff.mpr hlen)]
    apply verifyLoop_bad C m (ks.zip ss) i false
    · rw [List.length_zip, hlen, Nat.min_self]
      exact hlen ▸ hi
    · intro j hj
      have hjk : j < ks.length := lt_trans hj hi
      rw [zip_getD ks ss j hjk (hlen ▸ hjk)]
      exact hg j hj
    · rw [zip_getD ks ss i hi (hlen ▸ hi)]
      exact hb

/-- Witness for claim C8: a length-mismatched call and a call whose
first key fails to decode both return false. -/
theorem claim8_witness :
    verifySig demoCrypto "msg" ["K1"] [] = false
    ∧ verifySig demoCrypto "msg" ["bad", "K1"] ["1,1", "1,1"] = false :=
  ⟨claim8_verifySig_rejects_malformed.1 demoCrypto "msg" ["K1"] [] (by decide),
   claim8_verifySig_rejects_malformed.2 demoCrypto "msg" ["bad", "K1"] ["1,1", "1,1"] 0
     (by decide) (by decide)
     (fun j hj => absurd hj (Nat.not_lt_zero j))
     (Or.inl (by decide))⟩

/-! Claims about Invoke. -/

/-- Claim C10: an invocation whose function name is none of the
recognized operation names returns a success response whose payload is
the unrecognized function name itself, not an error, and changes no
state. -/
theorem claim10_unrecognized_name_success (C : Crypto) (now : Nat) (input : List String)
    (st : Store)
    (h1 : input.headD "" ≠ "download_request") (h2 : input.headD "" ≠ "penalty")
    (h3 : input.headD "" ≠ "refund") (h4 : input.headD "" ≠ "get_status") :
    Invoke C now input st = (Response.success (Bytes.str (input.headD "")), st) := by
  simp only [Invoke]
  rw [if_neg h1, if_neg h2, if_neg h3, if_neg h4]

/-- Witness for claim C10 at the function name "bogus". -/
theorem claim10_witness :
    Invoke demoCrypto 0 ["bogus"] emptyStore
      = (Response.success (Bytes.str (["bogus"].headD "")), emptyStore) :=
  claim10_unrecognized_name_success demoCrypto 0 ["bogus"] emptyStore
    (by decide) (by decide) (by decide) (by decide)

/-- Claim C4: a request call with six well-formed arguments succeeds;
the stored record has status "download_requested" with the given
deposit and expiry, owner address and port equal to the fixed
constants, user address and port from the arguments, and both parties'
stored balances equal StartAmount minus the deposit.  The two public
keys are assumed distinct from the fixed contract key, as the spec's
state layout prescribes. -/
theorem claim4_request_success (C : Crypto) (now : Nat)
    (spk rpk amt date ip port : String) (st : Store) (a : Int) (d : Nat)
    (hamt : atoi? amt = some a) (ha : 0 ≤ a)
    (hdate : parseDate date = some d) (hfut : now < d)
    (hspk : spk ≠ ContractKey) (hrpk : rpk ≠ ContractKey) :
    Invoke C now ["download_request", spk, rpk, amt, date, ip, port] st
      = (Response.success (Bytes.str "download_request"),
         put (put (put st spk (StoreVal.bal (StartAmount - a)))
             rpk (StoreVal.bal (StartAmount - a)))
           ContractKey
           (StoreVal.record ⟨"download_requested", ⟨spk, SenderIP, SenderPort⟩,
             ⟨rpk, ip, port⟩, d, a⟩))
      ∧ readBal ((Invoke C now ["download_request", spk, rpk, amt, date, ip, port] st).2 spk)
          = StartAmount - a
      ∧ readBal ((Invoke C now ["download_request", spk, rpk, amt, date, ip, port] st).2 rpk)
          = StartAmount - a := by
  have hdisp : Invoke C now ["download_request", spk, rpk, amt, date, ip, port] st
      = downloadRequest now ["download_request", spk, rpk, amt, date, ip, port] st := by
    simp [Invoke]
  have hmain : Invoke C now ["download_request", spk, rpk, amt, date, ip, port] st
      = (Response.success (Bytes.str "download_request"),
         put (put (put st spk (StoreVal.bal (StartAmount - a)))
             rpk (StoreVal.bal (StartAmount - a)))
           ContractKey
           (StoreVal.record ⟨"download_requested", ⟨spk, SenderIP, SenderPort⟩,
             ⟨rpk, ip, port⟩, d, a⟩)) := by
    rw [hdisp]
    simp only [downloadRequest, List.getD_cons_succ, List.getD_cons_zero]
    rw [if_neg (by simp), hamt]
    simp only [not_lt.mpr ha, if_false]
    rw [hdate]
    simp [hfut]
  refine ⟨hmain, ?_, ?_⟩
  · simp only [hmain]
    rw [put_ne _ _ _ _ hspk]
    by_cases hsr : spk = rpk
    · rw [hsr, put_self]; rfl
    · rw [put_ne _ _ _ _ hsr, put_self]; rfl
  · simp only [hmain]
    rw [put_ne _ _ _ _ hrpk, put_self]; rfl

/-- Witness for claim C4: the spec's own scenario, request with deposit
1000 and expiry 01/01/2999, leaving both balances at 74000. -/
theorem claim4_witness :
    readBal ((Invoke demoCrypto 0
        ["download_request", "OK", "UK", "1000", "01/01/2999", "1.2.3.4", "9000"]
        emptyStore).2 "OK") = 74000
    ∧ readBal ((Invoke demoCrypto 0
        ["download_request", "OK", "UK", "1000", "01/01/2999", "1.2.3.4", "9000"]
        emptyStore).2 "UK") = 74000
    ∧ (Invoke demoCrypto 0
        ["download_request", "OK", "UK", "1000", "01/01/2999", "1.2.3.4", "9000"]
        emptyStore).1 = Response.success (Bytes.str "download_request") := by
  have h := claim4_request_success demoCrypto 0 "OK" "UK" "1000" "01/01/2999" "1.2.3.4" "9000"
    emptyStore 1000 29990101 (by decide) (by decide) (by decide) (by decide)
    (by decide) (by decide)
  exact ⟨h.2.1.trans (by decide), h.2.2.trans (by decide), by rw [h.1]⟩

/-- Claim C7: a request call that fails validation (wrong argument
count, unparseable or negative amount, unparseable or non-future expiry
date) returns an error and issues no writes. -/
theorem claim7_request_failure_no_writes (C : Crypto) (now : Nat)
    (input : List String) (st : Store)
    (hfn : input.headD "" = "download_request")
    (hbad : input.length ≠ 7
      ∨ atoi? (input.getD 3 "") = none
      ∨ (∃ a, atoi? (input.getD 3 "") = some a ∧ a < 0)
      ∨ parseDate (input.getD 4 "") = none
      ∨ (∃ d, parseDate (input.getD 4 "") = some d ∧ ¬ now < d)) :
    ∃ e, Invoke C now input st = (Response.error e, st) := by
  have hdisp : Invoke C now input st = downloadRequest now input st := by
    simp only [Invoke]
    rw [if_pos hfn]
  rw [hdisp]
  by_cases h7 : input.length ≠ 7
  · simp only [downloadRequest]
    rw [if_pos h7]
    exact ⟨_, rfl⟩
  · rcases ha : atoi? (input.getD 3 "") with _ | a
    · simp only [downloadRequest]
      rw [if_neg h7]
      simp only [ha]
      exact ⟨_, rfl⟩
    · by_cases hneg : a < 0
      · simp only [downloadRequest]
        rw [if_neg h7]
        simp only [ha]
        rw [if_pos hneg]
        exact ⟨_, rfl⟩
      · rcases hd : parseDate (input.getD 4 "") with _ | d
        · simp only [downloadRequest]
          rw [if_neg h7]
          simp only [ha]
          rw [if_neg hneg]
          simp only [hd]
          exact ⟨_, rfl⟩
        · by_cases ht : now < d
          · exfalso
            rcases hbad with h | h | h | h | h
            · exact h7 h
            · rw [ha] at h; exact Option.noConfusion h
            · obtain ⟨a2, hx, hy⟩ := h
              rw [ha] at hx
              injection hx with hz
              exact hneg (hz ▸ hy)
            · rw [hd] at h; exact Option.noConfusion h
            · obtain ⟨d2, hx, hy⟩ := h
              rw [hd] at hx
              injection hx with hz
              exact hy (hz ▸ ht)
          · simp only [downloadRequest]
            rw [if_neg h7]
            simp only [ha]
            rw [if_neg hneg]
            simp only [hd]
            rw [if_pos ht]
            exact ⟨_, rfl⟩

/-- Witness for claim C7: a request with a wrong argument count errors
and leaves the store untouched. -/
theorem claim7_witness :
    ∃ e, Invoke demoCrypto 0 ["download_request"] emptyStore
      = (Response.error e, emptyStore) :=
  claim7_request_failure_no_writes demoCrypto 0 ["download_request"] emptyStore
    (by decide) (Or.inl (by decide))

/-- Claim C2: the status a successful request writes
("download_requested") is not the status refund's precondition tests
for ("download_request"): after any successful request, a refund at any
later time and under any crypto model fails with the invalid-status
error and leaves the store unchanged. -/
theorem claim2_refund_status_mismatch (Ca Cb : Crypto) (nowa nowb : Nat)
    (input : List String) (st : Store) (p : Bytes) (st2 : Store)
    (hfn : input.headD "" = "download_request")
    (hrun : Invoke Ca nowa input st = (Response.success p, st2)) :
    Invoke Cb nowb ["refund"] st2
      = (Response.error "[-] Invalid status for refund. Current status: download_requested",
         st2) := by
  have hdisp : Invoke Ca nowa input st = downloadRequest nowa input st := by
    simp only [Invoke]
    rw [if_pos hfn]
  rw [hdisp] at hrun
  simp only [downloadRequest] at hrun
  split at hrun
  · simp at hrun
  · split at hrun
    · simp at hrun
    · split at hrun
      · simp at hrun
      · split at hrun
        · simp at hrun
        · split at hrun
          · simp at hrun
          · injection hrun with hp hst
            subst hst
            rw [invoke_refund_eq]
            simp only [refund, put_self, unmarshal]
            rw [if_pos (by decide)]
            rfl

/-- Witness for claim C2: a concrete successful request followed by a
refund. -/
theorem claim2_witness :
    Invoke demoCrypto 0 ["refund"]
        ((Invoke demoCrypto 0
          ["download_request", "OK", "UK", "1000", "01/01/2999", "1.2.3.4", "9000"]
          emptyStore).2)
      = (Response.error "[-] Invalid status for refund. Current status: download_requested",
         (Invoke demoCrypto 0
          ["download_request", "OK", "UK", "1000", "01/01/2999", "1.2.3.4", "9000"]
          emptyStore).2) :=
  claim2_refund_status_mismatch demoCrypto demoCrypto 0 0
    ["download_request", "OK", "UK", "1000", "01/01/2999", "1.2.3.4", "9000"] emptyStore
    (Bytes.str "download_request") _ (by decide) (Prod.ext (by decide) rfl)

/-- Claim C3: on a stored record whose status satisfies refund's
precondition, refund before or at the expiry fails with the
not-yet-expired error and changes no state; strictly after the expiry
it succeeds, credits the deposit back to the user's balance, sets the
status to "expired" and persists both.  The user's public key is
assumed distinct from the fixed contract key, as the spec's state
layout prescribes. -/
theorem claim3_refund_behavior (C : Crypto) (now : Nat) (st : Store) (apdl : APDL)
    (hc : unmarshal (st ContractKey) = apdl)
    (hstat : apdl.Status = "download_request")
    (hkey : apdl.SoftwareUser.PubKey ≠ ContractKey) :
    (¬ apdl.ContractExpiry < now →
        Invoke C now ["refund"] st = (Response.error "[-] APDL contract not yet expired", st))
    ∧ (apdl.ContractExpiry < now →
        Invoke C now ["refund"] st
          = (Response.success (Bytes.str "[+] APDL contract expired."),
             put (put st ContractKey (StoreVal.record { apdl with Status := "expired" }))
               apdl.SoftwareUser.PubKey
               (StoreVal.bal (readBal (st apdl.SoftwareUser.PubKey) + apdl.DepositAmount)))
        ∧ readBal ((Invoke C now ["refund"] st).2 apdl.SoftwareUser.PubKey)
            = readBal (st apdl.SoftwareUser.PubKey) + apdl.DepositAmount
        ∧ (Invoke C now ["refund"] st).2 ContractKey
            = some (StoreVal.record { apdl with Status := "expired" })) := by
  have hdisp : Invoke C now ["refund"] st = refund now st := invoke_refund_eq C now st
  have hns : ¬ apdl.Status ≠ "download_request" := not_ne_iff.mpr hstat
  constructor
  · intro hlt
    rw [hdisp]
    simp only [refund, hc]
    rw [if_neg hns, if_neg hlt]
  · intro hlt
    have hmain : Invoke C now ["refund"] st
        = (Response.success (Bytes.str "[+] APDL contract expired."),
           put (put st ContractKey (StoreVal.record { apdl with Status := "expired" }))
             apdl.SoftwareUser.PubKey
             (StoreVal.bal (readBal (st apdl.SoftwareUser.PubKey) + apdl.DepositAmount))) := by
      rw [hdisp]
      simp only [refund, hc]
      rw [if_neg hns, if_pos hlt]
    refine ⟨hmain, ?_, ?_⟩
    · simp only [hmain]
      rw [put_self]
      rfl
    · simp only [hmain]
      rw [put_ne _ _ _ _ (Ne.symm hkey), put_self]

/-- Witness for claim C3: refund on a record with status forced to
"download_request", deposit 500 and expiry 100, at time 200, credits
the user's balance 300 up to 800 and stores the expired record. -/
theorem claim3_witness :
    readBal ((Invoke demoCrypto 200 ["refund"] storeR).2 apdlR.SoftwareUser.PubKey)
        = readBal (storeR apdlR.SoftwareUser.PubKey) + apdlR.DepositAmount
    ∧ (Invoke demoCrypto 200 ["refund"] storeR).2 ContractKey
        = some (StoreVal.record { apdlR with Status := "expired" }) :=
  ((claim3_refund_behavior demoCrypto 200 storeR apdlR (by decide) (by decide)
    (by decide)).2 (by decide)).2

/-- Claim C5: on a record whose status permits penalty and whose
signature pair verifies, penalize sets the user's stored balance to its
previous value minus the deposit (no lower bound), sets the record's
status to "penalized" and persists both.  The user's public key is
assumed distinct from the fixed contract key, as the spec's state
layout prescribes. -/
theorem claim5_penalize_effect (C : Crypto) (now : Nat) (x0 m s1 s2 : String)
    (st : Store) (apdl : APDL)
    (hc : unmarshal (st ContractKey) = apdl)
    (hs1 : apdl.Status ≠ "init") (hs2 : apdl.Status ≠ "penalized")
    (hsig : verifySig C m [apdl.SoftwareOwner.PubKey, apdl.SoftwareUser.PubKey] [s1, s2] = true)
    (hkey : apdl.SoftwareUser.PubKey ≠ ContractKey) :
    Invoke C now ["penalty", x0, m, s1, s2] st
      = (Response.success (Bytes.str "[+] Penalty applied\n"),
         put (put st apdl.SoftwareUser.PubKey
             (StoreVal.bal (readBal (st apdl.SoftwareUser.PubKey) - apdl.DepositAmount)))
           ContractKey (StoreVal.record { apdl with Status := "penalized" }))
      ∧ readBal ((Invoke C now ["penalty", x0, m, s1, s2] st).2 apdl.SoftwareUser.PubKey)
          = readBal (st apdl.SoftwareUser.PubKey) - apdl.DepositAmount
      ∧ (Invoke C now ["penalty", x0, m, s1, s2] st).2 ContractKey
          = some (StoreVal.record { apdl with Status := "penalized" }) := by
  have hdisp : Invoke C now ["penalty", x0, m, s1, s2] st
      = penalty C ["penalty", x0, m, s1, s2] st := invoke_penalty_eq C now x0 m s1 s2 st
  have hmain : Invoke C now ["penalty", x0, m, s1, s2] st
      = (Response.success (Bytes.str "[+] Penalty applied\n"),
         put (put st apdl.SoftwareUser.PubKey
             (StoreVal.bal (readBal (st apdl.SoftwareUser.PubKey) - apdl.DepositAmount)))
           ContractKey (StoreVal.record { apdl with Status := "penalized" })) := by
    rw [hdisp]
    simp only [penalty, List.tail_cons, List.getD_cons_succ, List.getD_cons_zero, hc]
    rw [if_neg (by simp), if_neg (not_or.mpr ⟨hs1, hs2⟩), if_pos hsig]
  refine ⟨hmain, ?_, ?_⟩
  · simp only [hmain]
    rw [put_ne _ _ _ _ hkey, put_self]
    rfl
  · simp only [hmain]
    rw [put_self]

/-- Witness for claim C5: a valid penalty on a record with deposit 500
and a user balance of 100 leaves the user's balance at the negative
value -400. -/
theorem claim5_witness :
    readBal ((Invoke demoCrypto 0 ["penalty", "x", "msg", "1,1", "1,1"] storeW).2
        apdlW.SoftwareUser.PubKey) = -400 := by
  have h := claim5_penalize_effect demoCrypto 0 "x" "msg" "1,1" "1,1" storeW apdlW
    (by decide) (by decide) (by decide) (by decide) (by decide)
  exact h.2.1.trans (by decide)

/-- Claim C6: while the stored status is the uninitialized marker
"init" or "penalized", penalize fails with the invalid-status error for
all signature arguments whatsoever and changes no state; any other
status value passes this gate, after which the outcome is decided by
signature verification alone. -/
theorem claim6_penalize_status_gate (C : Crypto) (now : Nat) (x0 m s1 s2 : String)
    (st : Store) (apdl : APDL)
    (hc : unmarshal (st ContractKey) = apdl) :
    ((apdl.Status = "init" ∨ apdl.Status = "penalized") →
        Invoke C now ["penalty", x0, m, s1, s2] st
          = (Response.error ("[-] Invalid status for penalty. Current status: " ++ apdl.Status),
             st))
    ∧ (apdl.Status ≠ "init" → apdl.Status ≠ "penalized" →
        (verifySig C m [apdl.SoftwareOwner.PubKey, apdl.SoftwareUser.PubKey] [s1, s2] = true →
            Invoke C now ["penalty", x0, m, s1, s2] st
              = (Response.success (Bytes.str "[+] Penalty applied\n"),
                 put (put st apdl.SoftwareUser.PubKey
                     (StoreVal.bal (readBal (st apdl.SoftwareUser.PubKey) - apdl.DepositAmount)))
                   ContractKey (StoreVal.record { apdl with Status := "penalized" })))
        ∧ (verifySig C m [apdl.SoftwareOwner.PubKey, apdl.SoftwareUser.PubKey] [s1, s2] = false →
            Invoke C now ["penalty", x0, m, s1, s2] st
              = (Response.error ("[-] Signature verification failed. Penalty not applied. comparisons: "
                  ++ (apdl.SoftwareOwner.PubKey ++ " vs. " ++ s1) ++ "---"
                  ++ (apdl.SoftwareUser.PubKey ++ " vs. " ++ s2)), st))) := by
  have hdisp : Invoke C now ["penalty", x0, m, s1, s2] st
      = penalty C ["penalty", x0, m, s1, s2] st := invoke_penalty_eq C now x0 m s1 s2 st
  constructor
  · intro hst
    rw [hdisp]
    simp only [penalty, List.tail_cons, List.getD_cons_succ, List.getD_cons_zero, hc]
    rw [if_neg (by simp), if_pos hst]
  · intro hs1 hs2
    constructor
    · intro hsig
      rw [hdisp]
      simp only [penalty, List.tail_cons, List.getD_cons_succ, List.getD_cons_zero, hc]
      rw [if_neg (by simp), if_neg (not_or.mpr ⟨hs1, hs2⟩), if_pos hsig]
    · intro hsig
      rw [hdisp]
      simp only [penalty, List.tail_cons, List.getD_cons_succ, List.getD_cons_zero, hc]
      rw [if_neg (by simp), if_neg (not_or.mpr ⟨hs1, hs2⟩), hsig, if_neg (by decide)]

/-- Witness for claim C6: penalty on the record written by Init (status
"init") fails with the invalid-status error even though both supplied
signatures would verify. -/
theorem claim6_witness :
    Invoke demoCrypto 0 ["penalty", "x", "msg", "1,1", "1,1"] storeInit
      = (Response.error ("[-] Invalid status for penalty. Current status: " ++ apdlInit.Status),
         storeInit) :=
  (claim6_penalize_status_gate demoCrypto 0 "x" "msg" "1,1" "1,1" storeInit apdlInit
    (by decide)).1 (Or.inl (by decide))

/-- Claim C9: a successful penalize writes only the user's balance key
and the contract record key; every other key, in particular the owner's
stored balance when the owner's key differs from those two, is
unchanged. -/
theorem claim9_penalize_frame (C : Crypto) (now : Nat) (x0 m s1 s2 : String) (st : Store)
    (hs : (Invoke C now ["penalty", x0, m, s1, s2] st).1
        = Response.success (Bytes.str "[+] Penalty applied\n")) :
    ∀ q : String, q ≠ (unmarshal (st ContractKey)).SoftwareUser.PubKey → q ≠ ContractKey →
      (Invoke C now ["penalty", x0, m, s1, s2] st).2 q = st q := by
  intro q hqu hqc
  have hdisp : Invoke C now ["penalty", x0, m, s1, s2] st
      = penalty C ["penalty", x0, m, s1, s2] st := invoke_penalty_eq C now x0 m s1 s2 st
  rw [hdisp]
  simp only [penalty]
  split
  · rfl
  · split
    · rfl
    · split
      · dsimp only
        rw [put_ne _ _ _ _ hqc, put_ne _ _ _ _ hqu]
      · rfl

/-- Witness for claim C9: after the successful penalty of the claim C5
scenario, the owner's balance key "K1" is untouched. -/
theorem claim9_witness :
    (Invoke demoCrypto 0 ["penalty", "x", "msg", "1,1", "1,1"] storeW).2 "K1" = storeW "K1" :=
  claim9_penalize_frame demoCrypto 0 "x" "msg" "1,1" "1,1" storeW (by decide) "K1"
    (by decide) (by decide)

end SSDLedger
